import Mathlib

/-!
Verification of the FileIcon icon-conversion core: the ICNS encoder
(buildIcns), the fixed size tables, the conversion route handler, the
download route handler with its filename validation, and the timed
cleanup task.  Buffers are modeled as lists of byte values (Nat, each
less than 256 where produced); fallible operations return Except.
-/

namespace FileIcon

/-- A byte buffer, as in Node `Buffer`; each element is one byte value. -/
abbrev Bytes := List Nat

/-- Encoding a JS string into bytes with the "ascii" encoding, which Node
documents as equivalent to latin1 when writing into a Buffer: each code
unit is truncated to one byte. -/
def asciiBytes (s : String) : Bytes := s.data.map (fun c => c.toNat % 256)

/-- The four bytes written by `Buffer.writeUInt32BE` for a value below 2^32,
most significant first. -/
def be32 (n : Nat) : Bytes :=
  [n / 16777216 % 256, n / 65536 % 256, n / 256 % 256, n % 256]

/-- Reading four bytes big-endian starting at offset `off`. -/
def readU32BE (b : Bytes) (off : Nat) : Nat :=
  ((b.getD off 0 * 256 + b.getD (off + 1) 0) * 256 + b.getD (off + 2) 0) * 256
    + b.getD (off + 3) 0

/-- Largest value `Buffer.writeUInt32BE` accepts (2^32 - 1). -/
def U32_MAX : Nat := 4294967295

/-- `buf.write(data, off)` / `data.copy(buf, off)`: overwrite the bytes of
`buf` starting at `off` with `data`, truncated to the space available.
Length is preserved when `off` is within the buffer. -/
def writeAt (buf : Bytes) (off : Nat) (d : Bytes) : Bytes :=
  buf.take off ++ d.take (buf.length - off) ++ buf.drop (off + d.length)

/-- One ICNS entry as passed to buildIcns: `{ osType: string; data: Buffer }`. -/
structure IcnsEntry where
  osType : String
  data : Bytes
deriving Repr, DecidableEq

/-- The only failure of buildIcns: `writeUInt32BE` (or `Buffer.alloc`)
throws when the total size does not fit the unsigned 32-bit range. -/
inductive EncodingError where
  | rangeError
deriving Repr, DecidableEq

/-- The size accumulation loop of buildIcns:
`let totalSize = 8; for (entry) totalSize += 8 + entry.data.length`. -/
def icnsTotalSize (entries : List IcnsEntry) : Nat :=
  entries.foldl (fun acc e => acc + (8 + e.data.length)) 8

/-- The entry-writing loop of buildIcns: at the running offset, write the
type tag (at most 4 bytes of its ascii encoding), then the big-endian
length `entry.data.length + 8`, then copy the payload, and advance the
offset by `8 + entry.data.length`. -/
def icnsLoop : List IcnsEntry → Bytes → Nat → Bytes
  | [], buf, _ => buf
  | e :: rest, buf, off =>
      let buf1 := writeAt buf off ((asciiBytes e.osType).take 4)
      let buf2 := writeAt buf1 (off + 4) (be32 (e.data.length + 8))
      let buf3 := writeAt buf2 (off + 8) e.data
      icnsLoop rest buf3 (off + 8 + e.data.length)

/-- buildIcns from the source: allocate a zero-filled buffer of the total
size, write the magic "icns" at offset 0, the big-endian total size at
offset 4, then the entries from offset 8 on.  The guard mirrors the
range check of `writeUInt32BE(totalSize, 4)`; the per-entry
`writeUInt32BE(entry.data.length + 8, ...)` checks cannot fire once this
one has passed, because totalSize is at least 16 + entry.data.length for
every entry. -/
def buildIcns (entries : List IcnsEntry) : Except EncodingError Bytes :=
  let totalSize := icnsTotalSize entries
  if totalSize > U32_MAX then .error .rangeError
  else
    let buf0 := List.replicate totalSize 0
    let buf1 := writeAt buf0 0 (asciiBytes ("icns"))
    let buf2 := writeAt buf1 4 (be32 totalSize)
    .ok (icnsLoop entries buf2 8)

/-- The bytes one entry occupies in the output: the tag bytes (truncated to
4, padded with the zero fill of the allocation when shorter), the
big-endian length field, the payload. -/
def entryBytes (e : IcnsEntry) : Bytes :=
  ((asciiBytes e.osType).take 4
      ++ List.replicate (4 - ((asciiBytes e.osType).take 4).length) 0)
    ++ be32 (e.data.length + 8) ++ e.data

/-- Flat description of the buildIcns output. -/
def icnsFlat (entries : List IcnsEntry) : Bytes :=
  asciiBytes ("icns") ++ be32 (icnsTotalSize entries)
    ++ (entries.map entryBytes).flatten

/-- `const ICO_SIZES = [16, 24, 32, 48, 64, 128, 256]`. -/
def ICO_SIZES : List Nat := [16, 24, 32, 48, 64, 128, 256]

/-- One row of the fixed ICNS table: `{ size: number; osType: string }`. -/
structure IcnsSizeSpec where
  size : Nat
  osType : String
deriving Repr, DecidableEq

/-- `const ICNS_SIZES` from the source. -/
def ICNS_SIZES : List IcnsSizeSpec :=
  [⟨16, "icp4"⟩, ⟨32, "icp5"⟩, ⟨64, "icp6"⟩, ⟨128, "ic07"⟩,
   ⟨256, "ic08"⟩, ⟨512, "ic09"⟩, ⟨1024, "ic10"⟩]

instance {ε α : Type} [DecidableEq ε] [DecidableEq α] : DecidableEq (Except ε α) := fun x y =>
  match x, y with
  | .error e, .error f =>
      if h : e = f then .isTrue (by rw [h]) else .isFalse (by intro c; cases c; exact h rfl)
  | .ok a, .ok b =>
      if h : a = b then .isTrue (by rw [h]) else .isFalse (by intro c; cases c; exact h rfl)
  | .error _, .ok _ => .isFalse (by intro c; cases c)
  | .ok _, .error _ => .isFalse (by intro c; cases c)

/-- One call issued to the Resizer, as built by
`sharp(imageBuffer).resize(size, size, { fit: "contain", background:
{ r: 0, g: 0, b: 0, alpha: 0 } }).png()`. -/
structure ResizeRequest where
  src : Bytes
  width : Nat
  height : Nat
  fit : String
  background : Nat × Nat × Nat × Nat
  format : String
deriving Repr, DecidableEq

/-- The request the handler builds for one target size. -/
def mkResize (img : Bytes) (size : Nat) : ResizeRequest :=
  ⟨img, size, size, "contain", (0, 0, 0, 0), "png"⟩

/-- The seven resize calls of `ICO_SIZES.map(...)`. -/
def icoResizeRequests (img : Bytes) : List ResizeRequest :=
  ICO_SIZES.map (mkResize img)

/-- The seven resize calls of `ICNS_SIZES.map(...)`. -/
def icnsResizeRequests (img : Bytes) : List ResizeRequest :=
  ICNS_SIZES.map (fun s => mkResize img s.size)

/-- Every resize call one conversion request issues. -/
def allResizeRequests (img : Bytes) : List ResizeRequest :=
  icoResizeRequests img ++ icnsResizeRequests img

/-- `pngBuffersForIco`: the resize results for the ICO table, in table
order; the first resize failure aborts the whole batch. -/
def icoPngsOf (resize : ResizeRequest → Except String Bytes) (img : Bytes) :
    Except String (List Bytes) :=
  (icoResizeRequests img).mapM resize

/-- `icnsEntries`: for each row of ICNS_SIZES, resize and pair the result
with the osType of the row. -/
def icnsEntriesOf (resize : ResizeRequest → Except String Bytes) (img : Bytes) :
    Except String (List IcnsEntry) :=
  ICNS_SIZES.mapM (fun s => (resize (mkResize img s.size)).map (fun d => IcnsEntry.mk s.osType d))

/-- The deferred deletion registered with setTimeout: fire after `delayMs`
milliseconds, unlinking each file in `targets`. -/
structure CleanupTask where
  delayMs : Nat
  targets : List String
deriving Repr, DecidableEq

/-- Outcome of the /api/convert handler: the HTTP response. -/
inductive ConvertResponse where
  | json (icoUrl icnsUrl : String)
  | serverError
deriving Repr, DecidableEq

/-- Everything observable about one run of the /api/convert handler: the
response sent, the files written to the output directory (name and
bytes, in write order), and the cleanup tasks scheduled. -/
structure ConvertOutcome where
  response : ConvertResponse
  files : List (String × Bytes)
  tasks : List CleanupTask
deriving Repr, DecidableEq

/-- The /api/convert handler body, with the external collaborators (the
sharp resizer and the png-to-ico encoder) abstract, and the generated id
a parameter (its generation is modeled by idString below).  Any thrown
error is caught and answered with status 500; files already written
stay written. -/
def convertHandler (resize : ResizeRequest → Except String Bytes)
    (pngToIco : List Bytes → Except String Bytes)
    (img : Bytes) (id : String) : ConvertOutcome :=
  match icoPngsOf resize img with
  | .error _ => ⟨.serverError, [], []⟩
  | .ok icoPngs =>
    match pngToIco icoPngs with
    | .error _ => ⟨.serverError, [], []⟩
    | .ok icoBuffer =>
      let icoFilename := id ++ ".ico"
      match icnsEntriesOf resize img with
      | .error _ => ⟨.serverError, [(icoFilename, icoBuffer)], []⟩
      | .ok entries =>
        match buildIcns entries with
        | .error _ => ⟨.serverError, [(icoFilename, icoBuffer)], []⟩
        | .ok icnsBuffer =>
          let icnsFilename := id ++ ".icns"
          ⟨.json ("/api/download/" ++ icoFilename) ("/api/download/" ++ icnsFilename),
           [(icoFilename, icoBuffer), (icnsFilename, icnsBuffer)],
           [⟨5 * 60 * 1000, [icoFilename, icnsFilename]⟩]⟩

/-- One character of the class [a-z0-9]. -/
def isLowerAlnum (c : Char) : Bool :=
  ('a' ≤ c && c ≤ 'z') || ('0' ≤ c && c ≤ '9')

/-- A nonempty run of [a-z0-9] characters: the stem part of the filename
pattern. -/
def validStem (cs : List Char) : Bool :=
  !cs.isEmpty && cs.all isLowerAlnum

/-- The test of the anchored pattern from the download route: one or more
characters of [a-z0-9], then a literal dot, then ico or icns, nothing
else.  A match splits the string after a nonempty all-alnum stem
followed by the 4-byte suffix .ico or the 5-byte suffix .icns. -/
def validName (s : String) : Bool :=
  let cs := s.data
  (validStem (cs.take (cs.length - 4)) && cs.drop (cs.length - 4) = ".ico".data)
    || (validStem (cs.take (cs.length - 5)) && cs.drop (cs.length - 5) = ".icns".data)

/-- `path.extname(filename).slice(1)`: the characters after the last dot.
Faithful on every filename the validation accepts (which always has a
dot after a nonempty stem). -/
def extOf (s : String) : String :=
  if s.data.contains '.' then ⟨(s.data.reverse.takeWhile (fun c => c != '.')).reverse⟩
  else ("")

/-- Outcome of the /api/download/:filename handler. -/
inductive DownloadResult where
  | ok (mime : String) (data : Bytes)
  | invalidFilename
  | notFound
deriving Repr, DecidableEq

/-- The /api/download handler: validate the filename against the pattern,
then look the file up in the output directory (modeled as an
association list of name and bytes) and serve it with the matching
content type, or answer 404.  The Bool records whether storage was
consulted at all (the existsSync and sendFile calls). -/
def downloadHandler (store : List (String × Bytes)) (filename : String) :
    DownloadResult × Bool :=
  if validName filename then
    match store.lookup filename with
    | some data =>
        (.ok (if extOf filename = "ico" then ("image/x-icon") else ("image/icns")) data, true)
    | none => (.notFound, true)
  else (.invalidFilename, false)

/-- `if (fs.existsSync(p)) fs.unlinkSync(p)`: delete the file when
present, do nothing otherwise; the surrounding try/catch swallows any
error, so the operation is total. -/
def removeFile (store : List (String × Bytes)) (name : String) :
    List (String × Bytes) :=
  if store.any (fun p => p.1 == name) then store.filter (fun p => p.1 != name)
  else store

/-- Running one scheduled cleanup task: unlink each target in turn. -/
def runCleanup (t : CleanupTask) (store : List (String × Bytes)) :
    List (String × Bytes) :=
  t.targets.foldl removeFile store

/-- Digit character of Number.prototype.toString(36): 0-9 then a-z. -/
def base36Char (d : Nat) : Char :=
  if d < 10 then Char.ofNat (48 + d) else Char.ofNat (87 + d)

/-- `n.toString(36)` for a nonnegative integer: its base-36 digits, most
significant first, lowercase. -/
def toBase36 (n : Nat) : List Char :=
  if n = 0 then ['0'] else (Nat.digits 36 n).reverse.map base36Char

/-- The id of one conversion request:
`Date.now().toString(36) + Math.random().toString(36).slice(2, 8)`.
`now` is the clock reading; `frac` is the sequence of base-36 fractional
digits of the random sample (each below 36 by construction), rendered
after the leading "0." so that slice(2, 8) keeps the first six of
them. -/
def idString (now : Nat) (frac : List (Fin 36)) : String :=
  ⟨toBase36 now ++ (frac.map (fun d => base36Char d.val)).take 6⟩

/-- The atomicity property claimed of a conversion run: either nothing was
stored, or both the ico and the icns artifact were. -/
def storesBothOrNeither (o : ConvertOutcome) (id : String) : Prop :=
  o.files = [] ∨
    ((id ++ ".ico") ∈ o.files.map Prod.fst ∧ (id ++ ".icns") ∈ o.files.map Prod.fst)

instance (o : ConvertOutcome) (id : String) : Decidable (storesBothOrNeither o id) := by
  unfold storesBothOrNeither; infer_instance

/-- A resizer that succeeds on every size but 512 (a size only the ICNS
table requests), with a fixed tiny output. -/
def resizeFail512 : ResizeRequest → Except String Bytes :=
  fun r => if r.width = 512 then .error ("resize failed") else .ok [0]

/-- A png-to-ico encoder that always succeeds with a fixed output. -/
def pngToIcoConst : List Bytes → Except String Bytes :=
  fun _ => .ok [9]

/-- A resizer that always succeeds with a fixed tiny output. -/
def resizeOk : ResizeRequest → Except String Bytes :=
  fun _ => .ok [0]

theorem foldl_add_init (l : List IcnsEntry) (f : IcnsEntry → Nat) :
    ∀ a : Nat, l.foldl (fun acc e => acc + f e) a = a + (l.map f).sum := by
  induction l with
  | nil => intro a; simp
  | cons e rest ih => intro a; simp [List.foldl_cons, ih]; omega

theorem icnsTotalSize_eq (entries : List IcnsEntry) :
    icnsTotalSize entries = 8 + (entries.map (fun e => 8 + e.data.length)).sum :=
  foldl_add_init entries _ 8

theorem length_entryBytes (e : IcnsEntry) :
    (entryBytes e).length = 8 + e.data.length := by
  have h : ((asciiBytes e.osType).take 4).length ≤ 4 := by
    simp [List.length_take]
  simp [entryBytes, be32]
  omega

theorem writeAt_zeros (P : Bytes) (off m : Nat) (d : Bytes)
    (hoff : P.length = off) (h : d.length ≤ m) :
    writeAt (P ++ List.replicate m 0) off d = P ++ d ++ List.replicate (m - d.length) 0 := by
  subst hoff
  unfold writeAt
  rw [List.take_left]
  rw [List.length_append, List.length_replicate]
  have h1 : P.length + m - P.length = m := by omega
  rw [h1, List.take_of_length_le h]
  rw [← List.drop_drop, List.drop_left, List.drop_replicate]

theorem icnsLoop_spec : ∀ (entries : List IcnsEntry) (P : Bytes) (off m : Nat),
    P.length = off →
    (entries.map (fun e => 8 + e.data.length)).sum ≤ m →
    icnsLoop entries (P ++ List.replicate m 0) off
      = P ++ (entries.map entryBytes).flatten
          ++ List.replicate (m - (entries.map (fun e => 8 + e.data.length)).sum) 0
  | [], P, off, m, hoff, _ => by simp [icnsLoop]
  | e :: rest, P, off, m, hoff, h => by
      subst hoff
      have hsum : 8 + e.data.length + (rest.map (fun e => 8 + e.data.length)).sum ≤ m := by
        simpa using h
      have ht : ((asciiBytes e.osType).take 4).length ≤ 4 := by simp [List.length_take]
      have e1 : writeAt (P ++ List.replicate m 0) P.length ((asciiBytes e.osType).take 4)
          = (P ++ ((asciiBytes e.osType).take 4
              ++ List.replicate (4 - ((asciiBytes e.osType).take 4).length) 0))
            ++ List.replicate (m - 4) 0 := by
        rw [writeAt_zeros _ _ _ _ rfl (by omega)]
        rw [show List.replicate (m - ((asciiBytes e.osType).take 4).length) (0 : Nat)
            = List.replicate (4 - ((asciiBytes e.osType).take 4).length) 0
              ++ List.replicate (m - 4) 0 by
          rw [← List.replicate_add]; congr 1; omega]
        simp [List.append_assoc]
      have e2 : writeAt ((P ++ ((asciiBytes e.osType).take 4
              ++ List.replicate (4 - ((asciiBytes e.osType).take 4).length) 0))
            ++ List.replicate (m - 4) 0) (P.length + 4) (be32 (e.data.length + 8))
          = ((P ++ ((asciiBytes e.osType).take 4
              ++ List.replicate (4 - ((asciiBytes e.osType).take 4).length) 0))
            ++ be32 (e.data.length + 8)) ++ List.replicate (m - 4 - 4) 0 := by
        rw [writeAt_zeros _ _ _ _ (by simp <;> omega) (by simp [be32] <;> omega)]
        rw [show m - 4 - (be32 (e.data.length + 8)).length = m - 4 - 4 by simp [be32]]
      have e3 : writeAt (((P ++ ((asciiBytes e.osType).take 4
              ++ List.replicate (4 - ((asciiBytes e.osType).take 4).length) 0))
            ++ be32 (e.data.length + 8)) ++ List.replicate (m - 4 - 4) 0)
            (P.length + 8) e.data
          = (((P ++ ((asciiBytes e.osType).take 4
              ++ List.replicate (4 - ((asciiBytes e.osType).take 4).length) 0))
            ++ be32 (e.data.length + 8)) ++ e.data)
            ++ List.replicate (m - 4 - 4 - e.data.length) 0 := by
        rw [writeAt_zeros _ _ _ _ (by simp [be32] <;> omega) (by omega)]
      simp only [icnsLoop]
      rw [e1, e2, e3]
      rw [icnsLoop_spec rest _ (P.length + 8 + e.data.length)
            (m - 4 - 4 - e.data.length) (by simp [be32] <;> omega) (by omega)]
      have hcount : m - 4 - 4 - e.data.length - (rest.map (fun e => 8 + e.data.length)).sum
          = m - (List.map (fun e => 8 + e.data.length) (e :: rest)).sum := by
        simp; omega
      rw [hcount]
      simp [entryBytes, List.append_assoc]

theorem buildIcns_eq_flat (entries : List IcnsEntry)
    (h : icnsTotalSize entries ≤ U32_MAX) :
    buildIcns entries = .ok (icnsFlat entries) := by
  have hmagic : asciiBytes ("icns") = [105, 99, 110, 115] := by decide
  have hsum : icnsTotalSize entries
      = 8 + (entries.map (fun e => 8 + e.data.length)).sum := icnsTotalSize_eq entries
  simp only [buildIcns]
  rw [if_neg (by omega)]
  rw [hmagic]
  have h1 : writeAt (List.replicate (icnsTotalSize entries) 0) 0 [105, 99, 110, 115]
      = [105, 99, 110, 115] ++ List.replicate (icnsTotalSize entries - 4) 0 := by
    simpa using writeAt_zeros [] 0 (icnsTotalSize entries) [105, 99, 110, 115] rfl
      (by simp; omega)
  have h2 : writeAt ([105, 99, 110, 115] ++ List.replicate (icnsTotalSize entries - 4) 0) 4
        (be32 (icnsTotalSize entries))
      = ([105, 99, 110, 115] ++ be32 (icnsTotalSize entries))
        ++ List.replicate (icnsTotalSize entries - 8) 0 := by
    rw [writeAt_zeros _ _ _ _ (by simp) (by simp [be32]; omega)]
    rw [show icnsTotalSize entries - 4 - (be32 (icnsTotalSize entries)).length
        = icnsTotalSize entries - 8 by simp [be32]; omega]
  rw [h1, h2]
  rw [icnsLoop_spec entries ([105, 99, 110, 115] ++ be32 (icnsTotalSize entries)) 8
        (icnsTotalSize entries - 8) (by simp [be32]) (by omega)]
  rw [show icnsTotalSize entries - 8 - (entries.map (fun e => 8 + e.data.length)).sum = 0 by omega]
  simp [icnsFlat, hmagic, List.append_assoc]

theorem length_icnsFlat (entries : List IcnsEntry) :
    (icnsFlat entries).length = icnsTotalSize entries := by
  have h : ((entries.map entryBytes).map List.length)
      = entries.map (fun e => 8 + e.data.length) := by
    rw [List.map_map]
    exact List.map_congr_left (fun e _ => length_entryBytes e)
  simp [icnsFlat, icnsTotalSize_eq, asciiBytes, be32, h]
  omega

theorem readU32BE_at4 (A R : Bytes) (n : Nat) (hA : A.length = 4) (hn : n ≤ U32_MAX) :
    readU32BE (A ++ (be32 n ++ R)) 4 = n := by
  unfold readU32BE
  have g : ∀ i : Nat, (A ++ (be32 n ++ R)).getD (4 + i) 0 = (be32 n ++ R).getD i 0 := by
    intro i
    rw [List.getD_append_right A (be32 n ++ R) 0 (4 + i) (by omega)]
    congr 1
    omega
  have g0 := g 0
  rw [Nat.add_zero] at g0
  rw [g0, g 1, g 2, g 3]
  have e0 : (be32 n ++ R).getD 0 0 = n / 16777216 % 256 := rfl
  have e1 : (be32 n ++ R).getD 1 0 = n / 65536 % 256 := rfl
  have e2 : (be32 n ++ R).getD 2 0 = n / 256 % 256 := rfl
  have e3 : (be32 n ++ R).getD 3 0 = n % 256 := rfl
  rw [e0, e1, e2, e3]
  unfold U32_MAX at hn
  omega

theorem buildIcns_ok_bound (entries : List IcnsEntry) (buf : Bytes)
    (hok : buildIcns entries = .ok buf) :
    icnsTotalSize entries ≤ U32_MAX ∧ buf = icnsFlat entries := by
  by_cases h : icnsTotalSize entries ≤ U32_MAX
  · refine ⟨h, ?_⟩
    rw [buildIcns_eq_flat entries h] at hok
    exact (Except.ok.inj hok).symm
  · exfalso
    simp only [buildIcns] at hok
    rw [if_pos (by omega)] at hok
    exact Except.noConfusion hok

/-- C1: for every non-empty entry list, a buffer returned by buildIcns
starts with the 4-byte ASCII magic icns, its bytes 4-7 hold the
big-endian total length, that field equals the actual buffer length, and
the length is 8 plus the sum over entries of 8 plus the payload
length. -/
theorem c1_icns_header (entries : List IcnsEntry) (buf : Bytes)
    (hne : entries ≠ [])
    (hok : buildIcns entries = .ok buf) :
    buf.take 4 = asciiBytes ("icns")
      ∧ readU32BE buf 4 = buf.length
      ∧ buf.length = 8 + (entries.map (fun e => 8 + e.data.length)).sum := by
  obtain ⟨hbound, hbuf⟩ := buildIcns_ok_bound entries buf hok
  subst hbuf
  have hlen : (icnsFlat entries).length = icnsTotalSize entries := length_icnsFlat entries
  have hmlen : (asciiBytes ("icns")).length = 4 := by decide
  refine ⟨?_, ?_, ?_⟩
  · rw [icnsFlat, List.append_assoc]
    exact List.take_left' hmlen
  · rw [hlen, icnsTotalSize_eq]
    rw [icnsFlat]
    rw [List.append_assoc] at *
    rw [readU32BE_at4 _ _ _ hmlen hbound]
    exact (icnsTotalSize_eq entries).symm ▸ rfl
  · rw [hlen, icnsTotalSize_eq]

theorem c1_icns_header_witness :
    (([105, 99, 110, 115, 0, 0, 0, 19, 105, 99, 112, 52, 0, 0, 0, 11, 1, 2, 3] : Bytes).take 4
        = asciiBytes ("icns"))
      ∧ readU32BE [105, 99, 110, 115, 0, 0, 0, 19, 105, 99, 112, 52, 0, 0, 0, 11, 1, 2, 3] 4
        = ([105, 99, 110, 115, 0, 0, 0, 19, 105, 99, 112, 52, 0, 0, 0, 11, 1, 2, 3] : Bytes).length
      ∧ ([105, 99, 110, 115, 0, 0, 0, 19, 105, 99, 112, 52, 0, 0, 0, 11, 1, 2, 3] : Bytes).length
        = 8 + (([⟨"icp4", [1, 2, 3]⟩] : List IcnsEntry).map (fun e => 8 + e.data.length)).sum :=
  c1_icns_header [⟨"icp4", [1, 2, 3]⟩] _ (by decide) (by decide)

/-- C2: a buffer returned by buildIcns lays out the entries contiguously
after the 8-byte header, in caller order with no padding: each entry is
its 4-byte tag, a big-endian length equal to 8 plus the payload length,
then the payload unchanged; and the fixed table pairs sizes to tags as
16 icp4, 32 icp5, 64 icp6, 128 ic07, 256 ic08, 512 ic09, 1024 ic10, in
strictly ascending size order. -/
theorem c2_icns_layout :
    (∀ (entries : List IcnsEntry) (buf : Bytes),
        (∀ e ∈ entries, (asciiBytes e.osType).length = 4) →
        buildIcns entries = .ok buf →
        buf = asciiBytes ("icns") ++ be32 buf.length
          ++ (entries.map
              (fun e => asciiBytes e.osType ++ be32 (e.data.length + 8) ++ e.data)).flatten)
      ∧ ICNS_SIZES.map (fun s => (s.size, s.osType))
          = [(16, "icp4"), (32, "icp5"), (64, "icp6"), (128, "ic07"),
             (256, "ic08"), (512, "ic09"), (1024, "ic10")]
      ∧ List.Chain' (· < ·) (ICNS_SIZES.map IcnsSizeSpec.size) := by
  refine ⟨?_, by decide, by simp [ICNS_SIZES, List.chain'_cons]⟩
  intro entries buf htags hok
  obtain ⟨hbound, hbuf⟩ := buildIcns_ok_bound entries buf hok
  subst hbuf
  rw [length_icnsFlat entries]
  have hmap : entries.map entryBytes
      = entries.map (fun e => asciiBytes e.osType ++ be32 (e.data.length + 8) ++ e.data) := by
    refine List.map_congr_left (fun e he => ?_)
    have h4 := htags e he
    unfold entryBytes
    rw [List.take_of_length_le (le_of_eq h4), h4]
    simp
  rw [icnsFlat, hmap]

theorem c2_icns_layout_witness :
    (([105, 99, 110, 115, 0, 0, 0, 19, 105, 99, 112, 52, 0, 0, 0, 11, 1, 2, 3] : Bytes)
        = asciiBytes ("icns")
          ++ be32 ([105, 99, 110, 115, 0, 0, 0, 19, 105, 99, 112, 52, 0, 0, 0, 11, 1, 2, 3] :
              Bytes).length
          ++ (([⟨"icp4", [1, 2, 3]⟩] : List IcnsEntry).map
              (fun e => asciiBytes e.osType ++ be32 (e.data.length + 8) ++ e.data)).flatten)
      ∧ ICNS_SIZES.map (fun s => (s.size, s.osType))
          = [(16, "icp4"), (32, "icp5"), (64, "icp6"), (128, "ic07"),
             (256, "ic08"), (512, "ic09"), (1024, "ic10")]
      ∧ List.Chain' (· < ·) (ICNS_SIZES.map IcnsSizeSpec.size) :=
  ⟨c2_icns_layout.1 [⟨"icp4", [1, 2, 3]⟩] _ (by decide) (by decide),
   c2_icns_layout.2.1, c2_icns_layout.2.2⟩

/-- C3 counterexample: buildIcns does not fail on an empty entry set, nor
on a tag outside the fixed table; it returns a buffer in both cases. -/
theorem c3_counterexample :
    buildIcns [] = .ok [105, 99, 110, 115, 0, 0, 0, 8]
      ∧ buildIcns [⟨"zzzz", [7]⟩]
        = .ok [105, 99, 110, 115, 0, 0, 0, 17, 122, 122, 122, 122, 0, 0, 0, 9, 7] := by
  exact ⟨by decide, by decide⟩

/-- C3 amended: buildIcns performs no validation of the entry set: with
an empty entry set it succeeds and returns the 8-byte header-only
buffer, and more generally it succeeds on any entry list (tags in the
fixed table or not) whose total size fits an unsigned 32-bit value,
returning the flat chunk stream. -/
theorem c3_amended :
    buildIcns [] = .ok [105, 99, 110, 115, 0, 0, 0, 8]
      ∧ (∀ entries : List IcnsEntry, icnsTotalSize entries ≤ U32_MAX →
          buildIcns entries = .ok (icnsFlat entries)) :=
  ⟨by decide, fun entries h => buildIcns_eq_flat entries h⟩

theorem c3_amended_witness :
    buildIcns [] = .ok [105, 99, 110, 115, 0, 0, 0, 8]
      ∧ buildIcns [⟨"zzzz", [7]⟩] = .ok (icnsFlat [⟨"zzzz", [7]⟩]) :=
  ⟨c3_amended.1, c3_amended.2 _ (by decide)⟩

/-- C4 counterexample: with a resizer that fails only at size 512 (a size
requested only for the ICNS container), the conversion request fails
with a 500 response, yet the ico artifact alone has been stored. -/
theorem c4_counterexample :
    (convertHandler resizeFail512 pngToIcoConst [1] "abc").response = .serverError
      ∧ (convertHandler resizeFail512 pngToIcoConst [1] "abc").files.map Prod.fst
        = ["abc.ico"]
      ∧ ¬ storesBothOrNeither (convertHandler resizeFail512 pngToIcoConst [1] "abc") "abc" :=
  ⟨by decide, by decide, by decide⟩

/-- C4 amended: the stored artifacts of one conversion run are always a
prefix of the pair ico, icns: a failure before the ico write stores
nothing, a failure in the ICNS stage leaves exactly the ico artifact
stored, and a successful response always stores both. -/
theorem c4_storage_cases (resize : ResizeRequest → Except String Bytes)
    (pngToIco : List Bytes → Except String Bytes) (img : Bytes) (id : String) :
    ((convertHandler resize pngToIco img id).files.map Prod.fst = []
        ∨ (convertHandler resize pngToIco img id).files.map Prod.fst = [id ++ ".ico"]
        ∨ (convertHandler resize pngToIco img id).files.map Prod.fst
          = [id ++ ".ico", id ++ ".icns"])
      ∧ ((convertHandler resize pngToIco img id).response ≠ .serverError →
        (convertHandler resize pngToIco img id).files.map Prod.fst
          = [id ++ ".ico", id ++ ".icns"]) := by
  unfold convertHandler
  cases h1 : icoPngsOf resize img with
  | error e => simp [h1]
  | ok icoPngs =>
    cases h2 : pngToIco icoPngs with
    | error e => simp [h2]
    | ok icoBuffer =>
      cases h3 : icnsEntriesOf resize img with
      | error e => simp [h2, h3]
      | ok entries =>
        cases h4 : buildIcns entries with
        | error e => simp [h2, h3, h4]
        | ok icnsBuffer => simp [h2, h3, h4]

theorem c4_storage_cases_witness :
    (convertHandler resizeOk pngToIcoConst [1] "abc").files.map Prod.fst
      = ["abc.ico", "abc.icns"] :=
  (c4_storage_cases resizeOk pngToIcoConst [1] "abc").2 (by decide)

theorem mapM_ok {α β : Type} (g : α → β) : ∀ l : List α,
    (l.mapM (fun a => (Except.ok (g a) : Except String β))) = Except.ok (l.map g)
  | [] => rfl
  | a :: l => by
      rw [List.mapM_cons, mapM_ok g l]
      rfl

/-- C5: one conversion issues exactly 14 resize calls, 7 per table, all
from the same unmodified source buffer, each square with contain fit,
fully transparent background and png output; the target edges follow
the two tables, both strictly ascending; and with a resizer modeled as
a pure function the ICO encoder receives the resize results in table
order while the ICNS encoder receives them paired with the matching
table tag. -/
theorem c5_orchestration (img : Bytes) (f : ResizeRequest → Bytes) :
    (allResizeRequests img).length = 14
      ∧ (icoResizeRequests img).length = 7
      ∧ (icnsResizeRequests img).length = 7
      ∧ (∀ r ∈ allResizeRequests img,
          r.src = img ∧ r.height = r.width ∧ r.fit = "contain"
            ∧ r.background = (0, 0, 0, 0) ∧ r.format = "png")
      ∧ (icoResizeRequests img).map ResizeRequest.width = ICO_SIZES
      ∧ (icnsResizeRequests img).map ResizeRequest.width = ICNS_SIZES.map IcnsSizeSpec.size
      ∧ List.Chain' (· < ·) ICO_SIZES
      ∧ List.Chain' (· < ·) (ICNS_SIZES.map IcnsSizeSpec.size)
      ∧ icoPngsOf (fun r => .ok (f r)) img = .ok (ICO_SIZES.map (fun s => f (mkResize img s)))
      ∧ icnsEntriesOf (fun r => .ok (f r)) img
        = .ok (ICNS_SIZES.map (fun s => IcnsEntry.mk s.osType (f (mkResize img s.size)))) := by
  refine ⟨?_, ?_, ?_, ?_, ?_, ?_, ?_, ?_, ?_, ?_⟩
  · simp [allResizeRequests, icoResizeRequests, icnsResizeRequests, ICO_SIZES, ICNS_SIZES]
  · simp [icoResizeRequests, ICO_SIZES]
  · simp [icnsResizeRequests, ICNS_SIZES]
  · intro r hr
    simp [allResizeRequests, icoResizeRequests, icnsResizeRequests] at hr
    rcases hr with ⟨s, _, rfl⟩ | ⟨s, _, rfl⟩ <;> simp [mkResize]
  · simp [icoResizeRequests, ICO_SIZES, mkResize]
  · simp [icnsResizeRequests, ICNS_SIZES, mkResize]
  · simp [ICO_SIZES, List.chain'_cons]
  · simp [ICNS_SIZES, List.chain'_cons]
  · rw [icoPngsOf]
    exact mapM_ok f (icoResizeRequests img)
  · rw [icnsEntriesOf]
    exact mapM_ok (fun s : IcnsSizeSpec => IcnsEntry.mk s.osType (f (mkResize img s.size)))
      ICNS_SIZES

theorem c5_orchestration_witness :
    (allResizeRequests [7]).length = 14
      ∧ ((mkResize [7] 16).src = [7] ∧ (mkResize [7] 16).height = (mkResize [7] 16).width
          ∧ (mkResize [7] 16).fit = "contain" ∧ (mkResize [7] 16).background = (0, 0, 0, 0)
          ∧ (mkResize [7] 16).format = "png")
      ∧ icoPngsOf (fun r => .ok ((fun q => [q.width]) r)) [7]
        = .ok (ICO_SIZES.map (fun s => (fun q => [q.width]) (mkResize [7] s))) :=
  ⟨(c5_orchestration [7] (fun q => [q.width])).1,
   (c5_orchestration [7] (fun q => [q.width])).2.2.2.1 (mkResize [7] 16) (by decide),
   (c5_orchestration [7] (fun q => [q.width])).2.2.2.2.2.2.2.2.1⟩

theorem validName_ico (id : String) (h : validStem id.data = true) :
    validName (id ++ ".ico") = true := by
  simp only [validName, String.data_append]
  have hl : (id.data ++ (['.', 'i', 'c', 'o'] : List Char)).length = id.data.length + 4 := by
    simp
  simp only [hl, show id.data.length + 4 - 4 = id.data.length from by omega,
    List.take_left, List.drop_left]
  simp [h]

theorem validName_icns (id : String) (h : validStem id.data = true) :
    validName (id ++ ".icns") = true := by
  simp only [validName, String.data_append]
  have hl : (id.data ++ (['.', 'i', 'c', 'n', 's'] : List Char)).length
      = id.data.length + 5 := by simp
  simp only [hl, show id.data.length + 5 - 5 = id.data.length from by omega,
    List.take_left, List.drop_left]
  simp [h]

theorem extOf_ico (id : String) : extOf (id ++ ".ico") = "ico" := by
  unfold extOf
  rw [if_pos]
  · rw [String.data_append, List.reverse_append]
    rw [show (".ico".data.reverse : List Char) = ['o', 'c', 'i', '.'] from rfl]
    rw [List.cons_append, List.cons_append, List.cons_append, List.cons_append]
    rw [List.takeWhile_cons_of_pos (by decide), List.takeWhile_cons_of_pos (by decide),
      List.takeWhile_cons_of_pos (by decide), List.takeWhile_cons_of_neg (by decide)]
    rfl
  · rw [String.data_append]
    have : ('.' : Char) ∈ id.data ++ ".ico".data :=
      List.mem_append_right _ (by decide)
    simpa [List.contains_iff_exists_mem_beq] using ⟨'.', this, by decide⟩

theorem extOf_icns (id : String) : extOf (id ++ ".icns") = "icns" := by
  unfold extOf
  rw [if_pos]
  · rw [String.data_append, List.reverse_append]
    rw [show (".icns".data.reverse : List Char) = ['s', 'n', 'c', 'i', '.'] from rfl]
    rw [List.cons_append, List.cons_append, List.cons_append, List.cons_append,
      List.cons_append]
    rw [List.takeWhile_cons_of_pos (by decide), List.takeWhile_cons_of_pos (by decide),
      List.takeWhile_cons_of_pos (by decide), List.takeWhile_cons_of_pos (by decide),
      List.takeWhile_cons_of_neg (by decide)]
    rfl
  · rw [String.data_append]
    have : ('.' : Char) ∈ id.data ++ ".icns".data :=
      List.mem_append_right _ (by decide)
    simpa [List.contains_iff_exists_mem_beq] using ⟨'.', this, by decide⟩

theorem lookup_filter_self (s : List (String × Bytes)) (name : String) :
    (s.filter (fun p => p.1 != name)).lookup name = none := by
  rw [List.lookup_eq_none_iff]
  intro p hp
  have hm := List.of_mem_filter hp
  simp at hm ⊢
  exact fun hq => hm hq.symm

theorem removeFile_eq_filter (s : List (String × Bytes)) (name : String) :
    removeFile s name = s.filter (fun p => p.1 != name) := by
  unfold removeFile
  by_cases h : s.any (fun p => p.1 == name)
  · rw [if_pos h]
  · rw [if_neg h]
    refine (List.filter_eq_self.mpr ?_).symm
    intro p hp
    simp only [bne_iff_ne, ne_eq, decide_eq_true_eq]
    intro heq
    exact h (List.any_eq_true.mpr ⟨p, hp, by simp [heq]⟩)

theorem lookup_removeFile_self (s : List (String × Bytes)) (name : String) :
    (removeFile s name).lookup name = none := by
  rw [removeFile_eq_filter]
  exact lookup_filter_self s name

theorem lookup_removeFile_other (s : List (String × Bytes)) (name other : String)
    (h : s.lookup name = none) : (removeFile s other).lookup name = none := by
  rw [removeFile_eq_filter, List.lookup_eq_none_iff]
  intro p hp
  exact (List.lookup_eq_none_iff.mp h) p (List.mem_of_mem_filter hp)

theorem runCleanup_pair_lookup (store : List (String × Bytes)) (d : Nat) (a b : String) :
    (runCleanup ⟨d, [a, b]⟩ store).lookup a = none
      ∧ (runCleanup ⟨d, [a, b]⟩ store).lookup b = none := by
  unfold runCleanup
  simp only [List.foldl_cons, List.foldl_nil]
  exact ⟨lookup_removeFile_other _ _ _ (lookup_removeFile_self store a),
    lookup_removeFile_self _ b⟩

theorem filter_idem (q : String × Bytes → Bool) (s : List (String × Bytes)) :
    (s.filter q).filter q = s.filter q := by
  rw [List.filter_filter]
  exact List.filter_congr (fun p _ => by cases hq : q p <;> simp [hq])

theorem runCleanup_pair_idem (store : List (String × Bytes)) (d : Nat) (a b : String) :
    runCleanup ⟨d, [a, b]⟩ (runCleanup ⟨d, [a, b]⟩ store) = runCleanup ⟨d, [a, b]⟩ store := by
  unfold runCleanup
  simp only [List.foldl_cons, List.foldl_nil, removeFile_eq_filter, List.filter_filter]
  exact List.filter_congr (fun p _ => by
    cases h1 : (p.1 != a) <;> cases h2 : (p.1 != b) <;> simp [h1, h2])

theorem convertHandler_success_inv (resize : ResizeRequest → Except String Bytes)
    (pngToIco : List Bytes → Except String Bytes) (img : Bytes) (id : String)
    (u v : String)
    (hok : (convertHandler resize pngToIco img id).response = .json u v) :
    ∃ icoB icnsB,
      (convertHandler resize pngToIco img id).files
          = [(id ++ ".ico", icoB), (id ++ ".icns", icnsB)]
        ∧ (convertHandler resize pngToIco img id).tasks
          = [⟨5 * 60 * 1000, [id ++ ".ico", id ++ ".icns"]⟩]
        ∧ u = "/api/download/" ++ (id ++ ".ico")
        ∧ v = "/api/download/" ++ (id ++ ".icns") := by
  unfold convertHandler at *
  cases h1 : icoPngsOf resize img with
  | error e => rw [h1] at hok; simp at hok
  | ok icoPngs =>
    rw [h1] at hok
    dsimp only at hok
    cases h2 : pngToIco icoPngs with
    | error e => rw [h2] at hok; simp at hok
    | ok icoBuffer =>
      rw [h2] at hok
      dsimp only at hok
      cases h3 : icnsEntriesOf resize img with
      | error e => rw [h3] at hok; simp at hok
      | ok entries =>
        rw [h3] at hok
        dsimp only at hok
        cases h4 : buildIcns entries with
        | error e => rw [h4] at hok; simp at hok
        | ok icnsBuffer =>
          rw [h4] at hok
          dsimp only at hok
          simp at hok
          refine ⟨icoBuffer, icnsBuffer, by simp [h2, h3, h4], by simp [h2, h3, h4],
            hok.1.symm, hok.2.symm⟩

theorem download_ok_ico (store : List (String × Bytes)) (id : String) (b : Bytes)
    (hid : validStem id.data = true) (hb : store.lookup (id ++ ".ico") = some b) :
    downloadHandler store (id ++ ".ico") = (.ok ("image/x-icon") b, true) := by
  unfold downloadHandler
  rw [if_pos (validName_ico id hid), hb]
  simp [extOf_ico]

theorem download_ok_icns (store : List (String × Bytes)) (id : String) (b : Bytes)
    (hid : validStem id.data = true) (hb : store.lookup (id ++ ".icns") = some b) :
    downloadHandler store (id ++ ".icns") = (.ok ("image/icns") b, true) := by
  unfold downloadHandler
  rw [if_pos (validName_icns id hid), hb]
  simp [extOf_icns]

theorem download_none_ico (store : List (String × Bytes)) (id : String)
    (hid : validStem id.data = true) (hb : store.lookup (id ++ ".ico") = none) :
    downloadHandler store (id ++ ".ico") = (.notFound, true) := by
  unfold downloadHandler
  rw [if_pos (validName_ico id hid), hb]

theorem download_none_icns (store : List (String × Bytes)) (id : String)
    (hid : validStem id.data = true) (hb : store.lookup (id ++ ".icns") = none) :
    downloadHandler store (id ++ ".icns") = (.notFound, true) := by
  unfold downloadHandler
  rw [if_pos (validName_icns id hid), hb]

theorem download_invalid (store : List (String × Bytes)) (fn : String)
    (h : validName fn = false) :
    downloadHandler store fn = (.invalidFilename, false) := by
  unfold downloadHandler
  rw [h]
  rfl

theorem ico_ne_icns (id : String) : (id ++ ".ico") ≠ (id ++ ".icns") := by
  intro h
  have hlen := congrArg String.length h
  rw [String.length_append, String.length_append] at hlen
  rw [show (".ico" : String).length = 4 from rfl,
    show (".icns" : String).length = 5 from rfl] at hlen
  omega

/-- C6: for an id over the store alphabet and either kind, retrieval
returns the stored buffer when the id is live and fails with the
not-found error when no buffer is stored under that name (unknown,
expired, or purged); a name failing the pattern is rejected outright
with the invalid-filename failure, before any storage access. -/
theorem c6_get_semantics (store : List (String × Bytes)) (id : String)
    (hid : validStem id.data = true) :
    (∀ b, store.lookup (id ++ ".ico") = some b →
        downloadHandler store (id ++ ".ico") = (.ok ("image/x-icon") b, true))
      ∧ (store.lookup (id ++ ".ico") = none →
        downloadHandler store (id ++ ".ico") = (.notFound, true))
      ∧ (∀ b, store.lookup (id ++ ".icns") = some b →
        downloadHandler store (id ++ ".icns") = (.ok ("image/icns") b, true))
      ∧ (store.lookup (id ++ ".icns") = none →
        downloadHandler store (id ++ ".icns") = (.notFound, true)) :=
  ⟨fun b hb => download_ok_ico store id b hid hb,
   fun hb => download_none_ico store id hid hb,
   fun b hb => download_ok_icns store id b hid hb,
   fun hb => download_none_icns store id hid hb⟩

theorem c6_get_semantics_witness :
    downloadHandler [("a1" ++ ".ico", [1]), ("a1" ++ ".icns", [2])] ("a1" ++ ".ico")
        = (.ok ("image/x-icon") [1], true)
      ∧ downloadHandler [("a1" ++ ".ico", [1]), ("a1" ++ ".icns", [2])] ("zz9" ++ ".ico")
        = (.notFound, true)
      ∧ downloadHandler [("a1" ++ ".ico", [1]), ("a1" ++ ".icns", [2])] ("a1" ++ ".icns")
        = (.ok ("image/icns") [2], true)
      ∧ downloadHandler [] ("a1" ++ ".icns") = (.notFound, true) :=
  ⟨(c6_get_semantics [("a1" ++ ".ico", [1]), ("a1" ++ ".icns", [2])] "a1" (by decide)).1
      [1] (by decide),
   (c6_get_semantics [("a1" ++ ".ico", [1]), ("a1" ++ ".icns", [2])] "zz9" (by decide)).2.1
      (by decide),
   (c6_get_semantics [("a1" ++ ".ico", [1]), ("a1" ++ ".icns", [2])] "a1" (by decide)).2.2.1
      [2] (by decide),
   (c6_get_semantics [] "a1" (by decide)).2.2.2 (by decide)⟩

/-- C7: a successful conversion schedules exactly one deletion task, at
creation time, with the fixed 5-minute delay and both artifact names as
targets; once that task has run, retrieval of either kind answers
not-found; running the task again changes nothing (idempotent), and
deleting a name with no stored file leaves the store untouched and
raises no error. -/
theorem c7_retention (resize : ResizeRequest → Except String Bytes)
    (pngToIco : List Bytes → Except String Bytes) (img : Bytes) (id u v : String)
    (store : List (String × Bytes))
    (hid : validStem id.data = true)
    (hok : (convertHandler resize pngToIco img id).response = .json u v) :
    (convertHandler resize pngToIco img id).tasks
        = [⟨5 * 60 * 1000, [id ++ ".ico", id ++ ".icns"]⟩]
      ∧ downloadHandler (runCleanup ⟨5 * 60 * 1000, [id ++ ".ico", id ++ ".icns"]⟩ store)
          (id ++ ".ico") = (.notFound, true)
      ∧ downloadHandler (runCleanup ⟨5 * 60 * 1000, [id ++ ".ico", id ++ ".icns"]⟩ store)
          (id ++ ".icns") = (.notFound, true)
      ∧ runCleanup ⟨5 * 60 * 1000, [id ++ ".ico", id ++ ".icns"]⟩
            (runCleanup ⟨5 * 60 * 1000, [id ++ ".ico", id ++ ".icns"]⟩ store)
          = runCleanup ⟨5 * 60 * 1000, [id ++ ".ico", id ++ ".icns"]⟩ store
      ∧ (∀ name, store.any (fun p => p.1 == name) = false →
          removeFile store name = store) := by
  obtain ⟨icoB, icnsB, hfiles, htasks, hu, hv⟩ :=
    convertHandler_success_inv resize pngToIco img id u v hok
  refine ⟨htasks, ?_, ?_, runCleanup_pair_idem store _ _ _, ?_⟩
  · exact download_none_ico _ id hid (runCleanup_pair_lookup store _ _ _).1
  · exact download_none_icns _ id hid (runCleanup_pair_lookup store _ _ _).2
  · intro name h
    unfold removeFile
    rw [if_neg (by simp [h])]

theorem c7_retention_witness :
    (convertHandler resizeOk pngToIcoConst [1] "a1").tasks
        = [⟨5 * 60 * 1000, ["a1" ++ ".ico", "a1" ++ ".icns"]⟩]
      ∧ downloadHandler
          (runCleanup ⟨5 * 60 * 1000, ["a1" ++ ".ico", "a1" ++ ".icns"]⟩
            [("a1" ++ ".ico", [9])])
          ("a1" ++ ".ico") = (.notFound, true) :=
  ⟨(c7_retention resizeOk pngToIcoConst [1] "a1"
      "/api/download/a1.ico" "/api/download/a1.icns" [("a1" ++ ".ico", [9])]
      (by decide) (by decide)).1,
   (c7_retention resizeOk pngToIcoConst [1] "a1"
      "/api/download/a1.ico" "/api/download/a1.icns" [("a1" ++ ".ico", [9])]
      (by decide) (by decide)).2.1⟩

/-- C8: a filename that does not match the anchored pattern is rejected
with the invalid-filename response and the storage is never consulted. -/
theorem c8_invalid_rejected (store : List (String × Bytes)) (fn : String)
    (h : validName fn = false) :
    downloadHandler store fn = (.invalidFilename, false) :=
  download_invalid store fn h

theorem c8_invalid_rejected_witness :
    downloadHandler [("a1.ico", [1])] "../etc/passwd.ico" = (.invalidFilename, false)
      ∧ downloadHandler [("a1.ico", [1])] "ABC123.exe" = (.invalidFilename, false) :=
  ⟨c8_invalid_rejected [("a1.ico", [1])] "../etc/passwd.ico" (by decide),
   c8_invalid_rejected [("a1.ico", [1])] "ABC123.exe" (by decide)⟩

/-- C9: when a conversion run has stored the pair of buffers under the
two derived filenames, an immediate retrieval of each kind returns a
buffer byte-identical to the one stored. -/
theorem c9_put_then_get (resize : ResizeRequest → Except String Bytes)
    (pngToIco : List Bytes → Except String Bytes) (img : Bytes) (id : String)
    (icoB icnsB : Bytes)
    (hid : validStem id.data = true)
    (hfiles : (convertHandler resize pngToIco img id).files
      = [(id ++ ".ico", icoB), (id ++ ".icns", icnsB)]) :
    downloadHandler (convertHandler resize pngToIco img id).files (id ++ ".ico")
        = (.ok ("image/x-icon") icoB, true)
      ∧ downloadHandler (convertHandler resize pngToIco img id).files (id ++ ".icns")
        = (.ok ("image/icns") icnsB, true) := by
  have hbeq : ((id ++ ".icns") == (id ++ ".ico")) = false :=
    beq_eq_false_iff_ne.mpr (Ne.symm (ico_ne_icns id))
  constructor
  · refine download_ok_ico _ id icoB hid ?_
    rw [hfiles]
    simp
  · refine download_ok_icns _ id icnsB hid ?_
    rw [hfiles, List.lookup_cons, hbeq]
    simp

set_option maxRecDepth 4000 in
theorem c9_put_then_get_witness :
    downloadHandler (convertHandler resizeOk pngToIcoConst [1] "a1").files ("a1" ++ ".ico")
        = (.ok ("image/x-icon") [9], true)
      ∧ downloadHandler (convertHandler resizeOk pngToIcoConst [1] "a1").files
          ("a1" ++ ".icns")
        = (.ok ("image/icns")
            [105, 99, 110, 115, 0, 0, 0, 71, 105, 99, 112, 52, 0, 0, 0, 9, 0, 105, 99, 112, 53, 0,
          0, 0, 9, 0, 105, 99, 112, 54, 0, 0, 0, 9, 0, 105, 99, 48, 55, 0, 0, 0, 9, 0, 105, 99,
          48, 56, 0, 0, 0, 9, 0, 105, 99, 48, 57, 0, 0, 0, 9, 0, 105, 99, 49, 48, 0, 0, 0, 9, 0], true) :=
  c9_put_then_get resizeOk pngToIcoConst [1] "a1" [9]
    [105, 99, 110, 115, 0, 0, 0, 71, 105, 99, 112, 52, 0, 0, 0, 9, 0, 105, 99, 112, 53, 0,
          0, 0, 9, 0, 105, 99, 112, 54, 0, 0, 0, 9, 0, 105, 99, 48, 55, 0, 0, 0, 9, 0, 105, 99,
          48, 56, 0, 0, 0, 9, 0, 105, 99, 48, 57, 0, 0, 0, 9, 0, 105, 99, 49, 48, 0, 0, 0, 9, 0]
    (by decide) (by decide)

theorem isLowerAlnum_base36Char (d : Nat) (h : d < 36) :
    isLowerAlnum (base36Char d) = true := by
  interval_cases d <;> decide

theorem toBase36_ne_nil (n : Nat) : toBase36 n ≠ [] := by
  unfold toBase36
  by_cases h : n = 0
  · simp [h]
  · rw [if_neg h]
    simp [Nat.digits_ne_nil_iff_ne_zero, h]

theorem toBase36_all (n : Nat) : (toBase36 n).all isLowerAlnum = true := by
  unfold toBase36
  by_cases h : n = 0
  · rw [if_pos h]
    decide
  · rw [if_neg h]
    rw [List.all_eq_true]
    intro c hc
    rw [List.mem_map] at hc
    obtain ⟨d, hd, rfl⟩ := hc
    rw [List.mem_reverse] at hd
    exact isLowerAlnum_base36Char d (Nat.digits_lt_base (by norm_num) hd)

/-- C10: every identifier the conversion handler generates (base-36
timestamp rendering plus up to six base-36 random digits) consists only
of lowercase letters and digits, so both download filenames built from
it match the validation pattern of the download route. -/
theorem c10_generated_ids (now : Nat) (frac : List (Fin 36)) :
    validStem (idString now frac).data = true
      ∧ validName (idString now frac ++ ".ico") = true
      ∧ validName (idString now frac ++ ".icns") = true := by
  have hdata : (idString now frac).data
      = toBase36 now ++ (frac.map (fun d => base36Char d.val)).take 6 := rfl
  have hstem : validStem (idString now frac).data = true := by
    rw [hdata]
    unfold validStem
    have hne : toBase36 now ≠ [] := toBase36_ne_nil now
    have hall : (toBase36 now ++ (frac.map (fun d => base36Char d.val)).take 6).all
        isLowerAlnum = true := by
      rw [List.all_append, toBase36_all now, Bool.true_and]
      rw [List.all_eq_true]
      intro c hc
      have hc2 := List.mem_of_mem_take hc
      rw [List.mem_map] at hc2
      obtain ⟨d, _, rfl⟩ := hc2
      exact isLowerAlnum_base36Char d.val d.isLt
    rw [hall]
    simp [hne]
  exact ⟨hstem, validName_ico _ hstem, validName_icns _ hstem⟩

end FileIcon
